import Mathlib

/-!
# Verification of the inference-result visualization pipeline

Shallow embedding of the visualization / post-processing helpers of the
repository's notebooks:

* `convert_result_to_image` (horizontal-text-detection notebook): threshold
  filtering, coordinate rescaling with integer truncation and the top clamp;
* the call-site zero-row removal `boxes = boxes[~np.all(boxes == 0, axis=1)]`;
* `add_detection_box` and `visualize_inference_result` (Faster R-CNN notebook);
* the COCO label map construction `dict(enumerate(coco_labels, 1))`.

Floating-point scores and coordinates are modelled over `ℚ`; Python `int()`
truncation and `round()` (banker's rounding) are modelled explicitly; Python's
in-place mutation of NumPy buffers is modelled by an explicit heap from
addresses to image values.  The external OpenCV drawing primitives
(`cv2.rectangle`, `cv2.putText`, `cv2.getTextSize`) are modelled by
deterministic pixel-level functions: the claims under study depend on which
draw calls happen with which arguments, not on OpenCV's exact rasterisation.
-/

/-- Python `int()` applied to a rational: truncation toward zero (floor for
nonnegative arguments, ceiling for negative ones). -/
def pyInt (q : ℚ) : ℤ := if 0 ≤ q then q.floor else -(Rat.floor (-q))

theorem ratFloor_eq_floor (q : ℚ) : q.floor = ⌊q⌋ :=
  (Rat.floor_def' q).trans Rat.floor_def.symm

/-- The function `pyInt` restated through the ambient `Int.floor` / `Int.ceil`, the form
used both in proofs and in `norm_num` evaluations of concrete inputs. -/
theorem pyInt_eq (q : ℚ) : pyInt q = if 0 ≤ q then ⌊q⌋ else ⌈q⌉ := by
  rw [pyInt]
  rcases le_or_lt 0 q with h | h
  · rw [if_pos h, if_pos h, ratFloor_eq_floor]
  · rw [if_neg (not_le.mpr h), if_neg (not_le.mpr h), ratFloor_eq_floor,
      Int.floor_neg, neg_neg]

theorem pyInt_of_nonneg {q : ℚ} (h : 0 ≤ q) : pyInt q = ⌊q⌋ := by
  rw [pyInt_eq, if_pos h]

/-- Python 3 `round()` on a rational: round half to even (banker's rounding). -/
def pyRound (q : ℚ) : ℤ :=
  let f := ⌊q⌋
  let r := q - (f : ℚ)
  if r < 1/2 then f
  else if 1/2 < r then f + 1
  else if f % 2 = 0 then f else f + 1

/-- One row of the `boxes` output blob of the horizontal-text-detection model:
`[x_min, y_min, x_max, y_max, conf]`. -/
structure DetRow where
  x_min : ℚ
  y_min : ℚ
  x_max : ℚ
  y_max : ℚ
  conf : ℚ
deriving DecidableEq

/-- Call-site preprocessing `boxes = boxes[~np.all(boxes == 0, axis=1)]`:
keep the rows of the output blob that are not identically zero.  NumPy's
`np.all(boxes == 0, axis=1)` tests all five entries of a row, the
confidence included. -/
def removeZeroBoxes (rows : List DetRow) : List DetRow :=
  rows.filter (fun r =>
    ¬(r.x_min = 0 ∧ r.y_min = 0 ∧ r.x_max = 0 ∧ r.y_max = 0 ∧ r.conf = 0))

/-- The Detection Filter as executed by the notebook: zero-row removal at the
call site followed by the `conf > threshold` test inside
`convert_result_to_image`. -/
def detectionFilter (threshold : ℚ) (rows : List DetRow) : List DetRow :=
  (removeZeroBoxes rows).filter (fun r => threshold < r.conf)

/-- The corner conversion of `convert_result_to_image`:
`int(max(corner_position * ratio_y, 10)) if idx % 2 else
int(corner_position * ratio_x)` applied to `box[:-1]`.  The `idx % 2` branch
is taken at indices 1 and 3, i.e. at `y_min` and at `y_max`. -/
def convertBox (ratio_x ratio_y : ℚ) (r : DetRow) : ℤ × ℤ × ℤ × ℤ :=
  (pyInt (r.x_min * ratio_x),
   pyInt (max (r.y_min * ratio_y) 10),
   pyInt (r.x_max * ratio_x),
   pyInt (max (r.y_max * ratio_y) 10))

/-- The sequence of rescaled boxes that `convert_result_to_image` passes to
`cv2.rectangle`, in loop order: rows whose confidence (the last entry)
strictly exceeds the threshold, converted with
`ratio_x = real_x / resized_x` and `ratio_y = real_y / resized_y`. -/
def convert_result_rectangles (real_x real_y resized_x resized_y threshold : ℚ)
    (boxes : List DetRow) : List (ℤ × ℤ × ℤ × ℤ) :=
  let ratio_x := real_x / resized_x
  let ratio_y := real_y / resized_y
  (boxes.filter (fun r => threshold < r.conf)).map (convertBox ratio_x ratio_y)

/-- The corner conversion as the specification sentence describes it: scale by
the per-axis ratio, truncate, and clamp only the y-coordinate of the box's
top edge (`y_min`) to a minimum of 10. -/
def convertBoxTopClampOnly (ratio_x ratio_y : ℚ) (r : DetRow) : ℤ × ℤ × ℤ × ℤ :=
  (pyInt (r.x_min * ratio_x),
   pyInt (max (r.y_min * ratio_y) 10),
   pyInt (r.x_max * ratio_x),
   pyInt (r.y_max * ratio_y))

/-- One coordinate rescaling step of `convert_result_to_image`:
`int(corner_position * ratio)`. -/
def rescale (ratio_ax : ℚ) (x : ℚ) : ℤ := pyInt (x * ratio_ax)

/-! ## Image buffers and the drawing primitives

An image is a list of rows of pixels, one `(ℤ × ℤ × ℤ)` colour triple per
pixel (shape `(height, width, 3)`); `image.shape[0]` is the row count and
`image.shape[1]` the length of a row.  The OpenCV primitives used by
`add_detection_box` are external library calls; they are modelled here by
deterministic pixel-level functions of exactly the arguments the source
passes to them. -/

/-- A pixel colour: one 8-bit sample per channel, modelled over `ℤ`. -/
abbrev Color := ℤ × ℤ × ℤ

/-- An image buffer: rows of pixels. -/
abbrev Image := List (List Color)

/-- Apply `f x px` to the pixels of one row, `x` counting from the given
start column. -/
def mapRowFrom (f : ℕ → Color → Color) : ℕ → List Color → List Color
  | _, [] => []
  | x, px :: rest => f x px :: mapRowFrom f (x + 1) rest

/-- Apply `f y x px` to every pixel of an image, `y` the row index and `x`
the column index. -/
def mapPixels (f : ℕ → ℕ → Color → Color) : ℕ → Image → Image
  | _, [] => []
  | y, row :: rest => mapRowFrom (f y) 0 row :: mapPixels f (y + 1) rest

/-- Deterministic model of the external primitive `cv2.rectangle`: pixels on
the (thickness-wide) outline of the axis-aligned rectangle spanned by the two
corner points receive the colour; a thickness of `-1` fills the rectangle. -/
def cv2_rectangle (img : Image) (p1 p2 : ℤ × ℤ) (color : Color) (thickness : ℤ) : Image :=
  let xlo := min p1.1 p2.1
  let xhi := max p1.1 p2.1
  let ylo := min p1.2 p2.2
  let yhi := max p1.2 p2.2
  mapPixels (fun y x px =>
    if xlo ≤ (x : ℤ) ∧ (x : ℤ) ≤ xhi ∧ ylo ≤ (y : ℤ) ∧ (y : ℤ) ≤ yhi ∧
        (thickness = -1 ∨ (x : ℤ) < xlo + thickness ∨ xhi - thickness < (x : ℤ) ∨
          (y : ℤ) < ylo + thickness ∨ yhi - thickness < (y : ℤ))
    then color else px) 0 img

/-- Deterministic model of the external primitive `cv2.getTextSize`: the
rendered `(width, height)` of a text, proportional to its length, the font
scale and the thickness. -/
def cv2_getTextSize (text : String) (fontScale : ℚ) (thickness : ℤ) : ℤ × ℤ :=
  ((text.length : ℤ) * (pyInt (10 * fontScale) + thickness),
    pyInt (10 * fontScale) + thickness)

/-- Deterministic model of the external primitive `cv2.putText`: the pixels
of the text row starting at the origin point receive the font colour, over a
width proportional to the text length. -/
def cv2_putText (img : Image) (text : String) (org : ℤ × ℤ) (fontScale : ℚ)
    (color : Color) (thickness : ℤ) : Image :=
  mapPixels (fun y x px =>
    if (y : ℤ) = org.2 ∧ org.1 ≤ (x : ℤ) ∧
        (x : ℤ) < org.1 + (text.length : ℤ) * (pyInt (10 * fontScale) + thickness)
    then color else px) 0 img

/-- Python truthiness of the optional `label` argument: `if label:` is
false both for `None` and for the empty string. -/
def labelTruthy : Option String → Bool
  | none => false
  | some s => s ≠ ""

/-- The function `add_detection_box` of the Faster R-CNN notebook.  The box is
`[ymin, xmin, ymax, xmax]`; the colour is the value of
`[random.randint(0, 255) for _ in range(3)]`, made an explicit argument so
that the hidden random state is part of the model. -/
def add_detection_box (box : ℚ × ℚ × ℚ × ℚ) (image : Image) (label : Option String)
    (box_color : Color) : Image :=
  let ymin := box.1
  let xmin := box.2.1
  let ymax := box.2.2.1
  let xmax := box.2.2.2
  let point1 : ℤ × ℤ := (pyInt xmin, pyInt ymin)
  let point2 : ℤ × ℤ := (pyInt xmax, pyInt ymax)
  let line_thickness : ℤ :=
    pyRound (2 / 1000 * ((image.length : ℚ) + ((image.headD []).length : ℚ)) / 2) + 1
  let img1 := cv2_rectangle image point1 point2 box_color line_thickness
  if labelTruthy label then
    let l := label.getD ""
    let font_thickness := max (line_thickness - 1) 1
    let font_scale : ℚ := (line_thickness : ℚ) / 3
    let text_size := cv2_getTextSize l font_scale font_thickness
    let rectangle_point2 : ℤ × ℤ := (point1.1 + text_size.1, point1.2 - text_size.2 - 3)
    let img2 := cv2_rectangle img1 point1 rectangle_point2 box_color (-1)
    let text_position : ℤ × ℤ := (point1.1, point1.2 - 3)
    cv2_putText img2 l text_position font_scale (255, 255, 255) font_thickness
  else img1

/-! ## The heap model of in-place mutation

Python passes NumPy buffers by reference: `add_detection_box` mutates the
buffer it is given and returns the very same reference.  A heap maps buffer
addresses to image values; a call is a function from the argument address and
the heap to the returned address and the new heap. -/

/-- The address of an image buffer. -/
abbrev Addr := ℕ

/-- A heap of image buffers. -/
abbrev Heap := Addr → Image

/-- A call `add_detection_box(box=box, image=<buffer at a>, label=label)`:
the buffer at `a` is overwritten with the annotated image, every other buffer
is untouched, and the returned reference is `a` itself. -/
def add_detection_box_call (box : ℚ × ℚ × ℚ × ℚ) (label : Option String)
    (box_color : Color) (a : Addr) (h : Heap) : Addr × Heap :=
  (a, fun x => if x = a then add_detection_box box (h a) label box_color else h x)

/-! ## The COCO label map and `visualize_inference_result` -/

/-- A whitespace character in the sense of Python's `str.strip()`. -/
def isSpaceChar (c : Char) : Bool := c = ' ' ∨ c = '\n' ∨ c = '\t' ∨ c = '\r'

/-- Model of the Python builtin `str.strip()`: drop whitespace from both
ends of the string. -/
def pyStrip (s : String) : String :=
  String.mk (((s.data.dropWhile isSpaceChar).reverse.dropWhile isSpaceChar).reverse)

/-- Split a character list at every newline. -/
def splitLinesAux : List Char → List (List Char)
  | [] => [[]]
  | c :: rest =>
    let r := splitLinesAux rest
    if c = '\n' then [] :: r
    else (c :: r.headD []) :: r.tail

/-- Model of the Python builtin `str.split("\n")`. -/
def pySplitLines (s : String) : List String :=
  (splitLinesAux s.data).map String.mk

/-- The label-map construction of the Faster R-CNN notebook:
`coco_labels = file.read().strip().split("\n")`;
`coco_labels_map = dict(enumerate(coco_labels, 1))`.  The dictionary is
modelled as an association list with integer keys; the Python string
builtins `strip` and `split` are modelled by the structural functions
above. -/
def coco_labels_map_of (contents : String) : List (ℤ × String) :=
  (pySplitLines (pyStrip contents)).enum.map (fun p => ((p.1 : ℤ) + 1, p.2))

/-- A detection box of the Faster R-CNN model output:
`[ymin, xmin, ymax, xmax]`, coordinates normalized to `[0, 1]`. -/
abbrev Box4 := ℚ × ℚ × ℚ × ℚ

/-- The output tensors of the model that `visualize_inference_result` reads
from the inference result (batch dimension dropped): boxes, class indices,
scores, and the detection count. -/
structure InferenceResult where
  detection_boxes : List Box4
  detection_classes : List ℚ
  detection_scores : List ℚ
  num_detections : ℚ

/-- The box normalization of `visualize_inference_result`:
`detection_boxes[::] * [height, width, height, width]` applied to one
`[ymin, xmin, ymax, xmax]` row. -/
def scaleBoxToImage (img_h img_w : ℚ) (b : Box4) : Box4 :=
  (b.1 * img_h, b.2.1 * img_w, b.2.2.1 * img_h, b.2.2.2 * img_w)

/-- The truncation bound `int(min(detections_limit, num_detections[0]) if
detections_limit is not None else num_detections[0])`. -/
def detectionsLimit (limit : Option ℤ) (num : ℚ) : ℤ :=
  pyInt (match limit with
    | some l => min (l : ℚ) num
    | none => num)

/-- Model of the Python f-string `f"{score:.2f}"`: the score rendered in
hundredths.  The exact digits are immaterial to the claims; only that the
label is a deterministic function of the class name and the score. -/
def fmtScore (q : ℚ) : String := toString (pyRound (q * 100))

/-- The sequence of `(box, label)` arguments that the loop of
`visualize_inference_result` passes to `add_detection_box`, given the scaled
boxes zipped with classes and scores.  The first component of the fuel is the
loop bound `range(detections_limit)`; a class index absent from
`labels_map` raises `KeyError`, aborting the loop with no further draw
calls, and running past the end of an output tensor likewise aborts. -/
def drawCalls (labels_map : List (ℤ × String)) :
    ℕ → List (Box4 × ℚ × ℚ) → List (Box4 × String)
  | 0, _ => []
  | _ + 1, [] => []
  | n + 1, d :: rest =>
    match labels_map.lookup (pyInt d.2.1) with
    | none => []
    | some name => (d.1, name ++ " " ++ fmtScore d.2.2) :: drawCalls labels_map n rest

/-- All `(box, label)` draw calls of one `visualize_inference_result`
invocation: truncate to `detections_limit`, scale every box by the original
image height and width, look up each class name and format the label. -/
def visualize_drawList (res : InferenceResult) (labels_map : List (ℤ × String))
    (limit : Option ℤ) (img_h img_w : ℚ) : List (Box4 × String) :=
  let n := (detectionsLimit limit res.num_detections).toNat
  let normalized := res.detection_boxes.map (scaleBoxToImage img_h img_w)
  drawCalls labels_map n (normalized.zip (res.detection_classes.zip res.detection_scores))

/-- Draw a list of `(box, label)` calls at address `a`, the i-th call with
colour `colorOf i`. -/
def drawAll (colorOf : ℕ → Color) (a : Addr) :
    List (Box4 × String) → ℕ → Heap → Heap
  | [], _, h => h
  | (b, l) :: rest, i, h =>
    drawAll colorOf a rest (i + 1) ((add_detection_box_call b (some l) (colorOf i) a h).2)

/-- The function `visualize_inference_result` over the heap: read the image at `imgAddr`,
allocate the copy `image_with_detection_boxex = np.copy(image)` at the fresh
address `fresh`, and run the draw loop on the copy.  The function itself
returns `None`; its observable effect is the final heap. -/
def visualize_inference_result (res : InferenceResult) (labels_map : List (ℤ × String))
    (limit : Option ℤ) (colorOf : ℕ → Color) (imgAddr fresh : Addr) (h : Heap) : Heap :=
  let img := h imgAddr
  let img_h : ℚ := (img.length : ℚ)
  let img_w : ℚ := ((img.headD []).length : ℚ)
  let copied : Heap := fun x => if x = fresh then img else h x
  drawAll colorOf fresh (visualize_drawList res labels_map limit img_h img_w) 0 copied

/-- The pipeline order asserted by the specification for
`visualize_inference_result`: Detection Filter first (keep detections whose
score strictly exceeds the threshold), then truncation to the limit, then
per-detection geometry normalization, label lookup and rendering. -/
def drawList_specOrder (threshold : ℚ) (res : InferenceResult)
    (labels_map : List (ℤ × String)) (limit : Option ℤ) (img_h img_w : ℚ) :
    List (Box4 × String) :=
  let n := (detectionsLimit limit res.num_detections).toNat
  let dets := res.detection_boxes.zip (res.detection_classes.zip res.detection_scores)
  let kept := dets.filter (fun d => threshold < d.2.2)
  drawCalls labels_map n (kept.map (fun d => (scaleBoxToImage img_h img_w d.1, d.2)))

/-! ## Claims about the Detection Filter and the Geometry Normalizer -/

/-- Claim C1 (counterexample).  The claim says the conversion clamps only the
y-coordinate of the box's top edge to a minimum of 10.  The code applies the
clamp at every odd index of `box[:-1]`, i.e. to `y_min` and to `y_max`: on
the box `[0, 0, 5, 2]` with both ratios 1 the code yields `y_max = 10`
where the claimed conversion yields `y_max = 2`. -/
theorem convertBox_top_clamp_only_refuted :
    convertBox 1 1 ⟨0, 0, 5, 2, 1⟩ ≠ convertBoxTopClampOnly 1 1 ⟨0, 0, 5, 2, 1⟩ := by
  norm_num [convertBox, convertBoxTopClampOnly, pyInt_eq, max_def]

/-- Claim C1 (amended).  `convert_result_to_image` multiplies every coordinate
by the scale factor of its own axis and truncates, and clamps **both**
y-coordinates (top and bottom edges) to a minimum of 10; the two scenarios
of the claim hold: `[10, 10, 50, 50]` under ratios `510/255` rescales to
`[20, 20, 100, 100]`, and a scaled top-edge y of 2 renders as 10. -/
theorem convertBox_scales_and_clamps :
    (∀ (rx ry : ℚ) (r : DetRow),
      convertBox rx ry r =
        (pyInt (r.x_min * rx), pyInt (max (r.y_min * ry) 10),
         pyInt (r.x_max * rx), pyInt (max (r.y_max * ry) 10))) ∧
    convertBox (510 / 255) (510 / 255) ⟨10, 10, 50, 50, 1⟩ = (20, 20, 100, 100) ∧
    convertBox (480 / 480) (480 / 480) ⟨20, 2, 50, 50, 1⟩ = (20, 10, 50, 50) := by
  refine ⟨fun rx ry r => rfl, ?_, ?_⟩ <;> norm_num [convertBox, pyInt_eq, max_def]

/-- Claim C2 (counterexample).  The claim says a detection whose box is
`[0, 0, 0, 0]` is never rendered even when its score exceeds the threshold.
The call-site filter `~np.all(boxes == 0, axis=1)` tests all five entries of
a row including the confidence, so the row `[0, 0, 0, 0, 0.9]` survives it,
passes the threshold 0.3, and is rendered (as the clamped rectangle
`(0, 10, 0, 10)`). -/
theorem zero_box_rendered_refuted :
    convert_result_rectangles 255 255 255 255 (3/10)
      (removeZeroBoxes [⟨0, 0, 0, 0, 9/10⟩]) = [(0, 10, 0, 10)] := by
  norm_num [convert_result_rectangles, removeZeroBoxes, convertBox, pyInt_eq,
    max_def, List.filter]

/-- Claim C2 (amended).  The Detection Filter removes every row whose five
entries (the four box coordinates and the score) are all zero; a row whose
box is `[0, 0, 0, 0]` but whose score is nonzero survives the zero-row
filter and is retained whenever its score exceeds the threshold. -/
theorem detectionFilter_removes_allzero_rows :
    (∀ (t : ℚ) (rows : List DetRow),
      (detectionFilter t rows).count ⟨0, 0, 0, 0, 0⟩ = 0) ∧
    detectionFilter (3/10) [⟨1, 2, 3, 4, 1/2⟩, ⟨0, 0, 0, 0, 9/10⟩]
      = [⟨1, 2, 3, 4, 1/2⟩, ⟨0, 0, 0, 0, 9/10⟩] := by
  constructor
  · intro t rows
    refine List.count_eq_zero.mpr ?_
    intro hmem
    have h1 := (List.mem_filter.mp hmem).1
    have h2 := (List.mem_filter.mp h1).2
    simp [removeZeroBoxes] at h2
  · norm_num [detectionFilter, removeZeroBoxes, List.filter]

/-- Claim C8.  With threshold 0.3, three rows of scores 0.9, 0.4, 0.1 and one
all-zero row, the Detection Filter retains exactly the two rows of scores
0.9 and 0.4, in order. -/
theorem detectionFilter_scenario :
    detectionFilter (3/10)
      [⟨1, 2, 3, 4, 9/10⟩, ⟨5, 6, 7, 8, 4/10⟩, ⟨9, 10, 11, 12, 1/10⟩, ⟨0, 0, 0, 0, 0⟩]
      = [⟨1, 2, 3, 4, 9/10⟩, ⟨5, 6, 7, 8, 4/10⟩] := by
  norm_num [detectionFilter, removeZeroBoxes, List.filter]

/-- Claim C4.  Filtering is monotone in the threshold: raising the threshold
never increases the number of retained detections, and the retained
detections are a sub-sequence of the batch in original order. -/
theorem detectionFilter_monotone (rows : List DetRow) (t1 t2 : ℚ) (h : t1 ≤ t2) :
    (detectionFilter t2 rows).length ≤ (detectionFilter t1 rows).length ∧
    (detectionFilter t2 rows).Sublist rows := by
  constructor
  · refine List.Sublist.length_le (List.monotone_filter_right _ ?_)
    intro r hr
    simp only [decide_eq_true_eq] at hr ⊢
    exact lt_of_le_of_lt h hr
  · exact (List.filter_sublist _).trans (List.filter_sublist _)

/-- Witness for `detectionFilter_monotone` at thresholds 1/4 ≤ 1/2. -/
theorem detectionFilter_monotone_witness :
    (detectionFilter (1/2) [⟨1, 2, 3, 4, 9/10⟩, ⟨5, 6, 7, 8, 4/10⟩]).length ≤
      (detectionFilter (1/4) [⟨1, 2, 3, 4, 9/10⟩, ⟨5, 6, 7, 8, 4/10⟩]).length ∧
    (detectionFilter (1/2) [⟨1, 2, 3, 4, 9/10⟩, ⟨5, 6, 7, 8, 4/10⟩]).Sublist
      [⟨1, 2, 3, 4, 9/10⟩, ⟨5, 6, 7, 8, 4/10⟩] :=
  detectionFilter_monotone _ _ _ (by norm_num)

/-- Claim C7.  The label map built from the two-line resource `"cat\ndog"`
with 1-based offset maps 1 to `"cat"` and 2 to `"dog"`, and lookup of an
index outside the loaded range (0, or 3, or -1) yields no label: the lookup
failure that `visualize_inference_result` surfaces as an exception
(`KeyError`, the spec's `LabelNotFoundError`) rather than a string. -/
theorem coco_labels_map_scenario :
    (coco_labels_map_of "cat\ndog").lookup 1 = some "cat" ∧
    (coco_labels_map_of "cat\ndog").lookup 2 = some "dog" ∧
    (coco_labels_map_of "cat\ndog").lookup 0 = none ∧
    (coco_labels_map_of "cat\ndog").lookup 3 = none ∧
    (coco_labels_map_of "cat\ndog").lookup (-1) = none := by
  refine ⟨?_, ?_, ?_, ?_, ?_⟩ <;> decide

/-! ## Claim about the rescale round trip -/

/-- Claim C5 (counterexample).  The claim says that rescaling a coordinate and
rescaling back with the inverse ratio lands within ±1 pixel.  With a
down-scaling ratio (real image smaller than the resized one, here
`ratio = 25/255`) the coordinate 5 truncates to 0 on the way out and stays
0 on the way back: an error of 5 pixels. -/
theorem rescale_roundTrip_refuted :
    rescale (255/25) ((rescale (25/255) 5 : ℤ) : ℚ) = 0 ∧
    ¬|rescale (255/25) ((rescale (25/255) 5 : ℤ) : ℚ) - 5| ≤ 1 := by
  norm_num [rescale, pyInt_eq]

/-- Claim C5 (amended).  For a nonnegative integer coordinate and a scale
factor of at least 1 on its axis (real dimension at least the resized
dimension), rescaling with `int(x * ratio)` and back with the inverse ratio
returns a value within 1 pixel below the original coordinate. -/
theorem rescale_roundTrip_close (x : ℕ) (r : ℚ) (hr : 1 ≤ r) :
    (x : ℤ) - 1 ≤ rescale (1/r) ((rescale r (x : ℚ) : ℤ) : ℚ) ∧
    rescale (1/r) ((rescale r (x : ℚ) : ℤ) : ℚ) ≤ (x : ℤ) := by
  have hr0 : (0 : ℚ) < r := lt_of_lt_of_le one_pos hr
  have hx : (0 : ℚ) ≤ (x : ℚ) * r := mul_nonneg (by positivity) hr0.le
  have h1 : rescale r (x : ℚ) = ⌊(x : ℚ) * r⌋ := pyInt_of_nonneg hx
  rw [h1]
  have hy0 : (0 : ℚ) ≤ ((⌊(x : ℚ) * r⌋ : ℤ) : ℚ) := by
    exact_mod_cast Int.floor_nonneg.mpr hx
  have h2 : rescale (1/r) ((⌊(x : ℚ) * r⌋ : ℤ) : ℚ)
      = ⌊((⌊(x : ℚ) * r⌋ : ℤ) : ℚ) * (1/r)⌋ :=
    pyInt_of_nonneg (mul_nonneg hy0 (by positivity))
  rw [h2, mul_one_div]
  have hub : ((⌊(x : ℚ) * r⌋ : ℤ) : ℚ) ≤ (x : ℚ) * r := Int.floor_le _
  have hlb : (x : ℚ) * r - 1 < ((⌊(x : ℚ) * r⌋ : ℤ) : ℚ) := Int.sub_one_lt_floor _
  constructor
  · rw [Int.le_floor]
    have e1 : (x : ℚ) - 1 ≤ (x : ℚ) - 1/r := by
      have hr1 : 1/r ≤ 1 := by rw [div_le_one hr0]; exact hr
      linarith
    have e2 : (x : ℚ) - 1/r ≤ ((⌊(x : ℚ) * r⌋ : ℤ) : ℚ) / r := by
      rw [le_div_iff₀ hr0, sub_mul, one_div, inv_mul_cancel₀ hr0.ne']
      linarith
    push_cast
    linarith
  · have hdiv : ((⌊(x : ℚ) * r⌋ : ℤ) : ℚ) / r ≤ (x : ℚ) := by
      rw [div_le_iff₀ hr0]
      exact hub
    calc ⌊((⌊(x : ℚ) * r⌋ : ℤ) : ℚ) / r⌋ ≤ ⌊(x : ℚ)⌋ := Int.floor_le_floor hdiv
      _ = (x : ℤ) := Int.floor_natCast x

/-- Witness for `rescale_roundTrip_close` at coordinate 7 and ratio 3/2. -/
theorem rescale_roundTrip_close_witness :
    ((7 : ℕ) : ℤ) - 1 ≤ rescale (1/(3/2)) ((rescale (3/2) ((7 : ℕ) : ℚ) : ℤ) : ℚ) ∧
    rescale (1/(3/2)) ((rescale (3/2) ((7 : ℕ) : ℚ) : ℤ) : ℚ) ≤ ((7 : ℕ) : ℤ) :=
  rescale_roundTrip_close 7 (3/2) (by norm_num)

/-! ## Claims about rendering: determinism and in-place mutation -/

/-- Claim C3 (counterexample).  The claim says two runs of `add_detection_box`
on identical inputs (image contents, box, label) produce identical buffers.
The box colour is drawn from the unseeded global `random` state, which is
not among those inputs: two runs whose colour draws differ paint different
pixels, here on a 2×2 zero image. -/
theorem add_detection_box_not_deterministic :
    add_detection_box (0, 0, 1, 1) [[(0,0,0), (0,0,0)], [(0,0,0), (0,0,0)]] none (1, 2, 3) ≠
    add_detection_box (0, 0, 1, 1) [[(0,0,0), (0,0,0)], [(0,0,0), (0,0,0)]] none (7, 8, 9) := by
  norm_num [add_detection_box, cv2_rectangle, mapPixels, mapRowFrom, pyInt_eq,
    pyRound, labelTruthy, max_def, min_def]

/-- Claim C3 (amended).  Rendering is deterministic once the hidden random
colour draw is fixed: two `add_detection_box` calls with the same box, label
and colour on two buffers of identical contents leave identical annotated
contents in those buffers. -/
theorem add_detection_box_deterministic (box : Box4) (label : Option String)
    (color : Color) (a1 a2 : Addr) (h1 h2 : Heap) (hc : h1 a1 = h2 a2) :
    (add_detection_box_call box label color a1 h1).2 a1 =
    (add_detection_box_call box label color a2 h2).2 a2 := by
  simp [add_detection_box_call, hc]

/-- Witness for `add_detection_box_deterministic`: the same 1×1 buffer
stored at two addresses. -/
theorem add_detection_box_deterministic_witness :
    (add_detection_box_call (0, 0, 1, 1) none (1, 2, 3) 0 (fun _ => [[(0,0,0)]])).2 0 =
    (add_detection_box_call (0, 0, 1, 1) none (1, 2, 3) 1 (fun _ => [[(0,0,0)]])).2 1 :=
  add_detection_box_deterministic (0, 0, 1, 1) none (1, 2, 3) 0 1
    (fun _ => [[(0,0,0)]]) (fun _ => [[(0,0,0)]]) rfl

/-- Claim C9.  `add_detection_box` mutates the buffer it is given in place —
after the call the buffer at the argument address holds the annotated image —
returns the very same buffer reference, and touches no other buffer. -/
theorem add_detection_box_call_inplace (box : Box4) (label : Option String)
    (color : Color) (a b : Addr) (h : Heap) (hb : b ≠ a) :
    (add_detection_box_call box label color a h).1 = a ∧
    (add_detection_box_call box label color a h).2 a =
      add_detection_box box (h a) label color ∧
    (add_detection_box_call box label color a h).2 b = h b := by
  refine ⟨rfl, ?_, ?_⟩ <;> simp [add_detection_box_call, hb]

/-- Witness for `add_detection_box_call_inplace` at addresses 0 and 1. -/
theorem add_detection_box_call_inplace_witness :
    (add_detection_box_call (0, 0, 1, 1) (some "cat") (1, 2, 3) 0 (fun _ => [[(0,0,0)]])).1 = 0 ∧
    (add_detection_box_call (0, 0, 1, 1) (some "cat") (1, 2, 3) 0 (fun _ => [[(0,0,0)]])).2 0 =
      add_detection_box (0, 0, 1, 1) ((fun _ : Addr => [[(0,0,0)]]) 0) (some "cat") (1, 2, 3) ∧
    (add_detection_box_call (0, 0, 1, 1) (some "cat") (1, 2, 3) 0 (fun _ => [[(0,0,0)]])).2 1 =
      (fun _ : Addr => [[(0,0,0)]]) 1 :=
  add_detection_box_call_inplace (0, 0, 1, 1) (some "cat") (1, 2, 3) 0 1
    (fun _ => [[(0,0,0)]]) (by decide)

/-- Drawing a list of boxes at address `a` leaves every other address of the
heap unchanged. -/
theorem drawAll_preserves (colorOf : ℕ → Color) (a : Addr) :
    ∀ (calls : List (Box4 × String)) (i : ℕ) (h : Heap) (b : Addr), b ≠ a →
      drawAll colorOf a calls i h b = h b := by
  intro calls
  induction calls with
  | nil => intro i h b _; rfl
  | cons d rest ih =>
    intro i h b hb
    obtain ⟨db, dl⟩ := d
    rw [drawAll, ih _ _ _ hb]
    simp [add_detection_box_call, hb]

/-- Claim C10.  `visualize_inference_result` draws only on the fresh copy
`np.copy(image)`: every buffer other than the copy — the caller's input
image in particular — holds exactly its old contents after the call. -/
theorem visualize_inference_result_preserves_input (res : InferenceResult)
    (labels_map : List (ℤ × String)) (limit : Option ℤ) (colorOf : ℕ → Color)
    (imgAddr fresh : Addr) (h : Heap) (b : Addr) (hb : b ≠ fresh) :
    visualize_inference_result res labels_map limit colorOf imgAddr fresh h b = h b := by
  rw [visualize_inference_result, drawAll_preserves _ _ _ _ _ _ hb]
  simp [hb]

/-- Witness for `visualize_inference_result_preserves_input`: input buffer
at address 0, the copy at address 1. -/
theorem visualize_inference_result_preserves_input_witness :
    visualize_inference_result ⟨[(0, 0, 1, 1)], [1], [9/10], 1⟩ [(1, "cat")] none
      (fun _ => (0, 255, 0)) 0 1 (fun _ => [[(0,0,0)]]) 0 = (fun _ : Addr => [[(0,0,0)]]) 0 :=
  visualize_inference_result_preserves_input ⟨[(0, 0, 1, 1)], [1], [9/10], 1⟩ [(1, "cat")]
    none (fun _ => (0, 255, 0)) 0 1 (fun _ => [[(0,0,0)]]) 0 (by decide)

/-! ## Claim about the pipeline order of `visualize_inference_result` -/

/-- Claim C6 (counterexample).  The claim says `visualize_inference_result`
runs the Detection Filter (score strictly above the threshold) before
truncating and rendering.  The function takes no threshold and filters
nothing: on a single detection of score 0.1 it issues one draw call, while
the claimed filter-first pipeline at threshold 0.3 issues none. -/
theorem visualize_no_threshold_refuted :
    visualize_drawList ⟨[(1/10, 1/10, 1/2, 1/2)], [1], [1/10], 1⟩ [(1, "cat")] none 4 4 ≠
    drawList_specOrder (3/10) ⟨[(1/10, 1/10, 1/2, 1/2)], [1], [1/10], 1⟩
      [(1, "cat")] none 4 4 := by
  norm_num [visualize_drawList, drawList_specOrder, drawCalls, detectionsLimit,
    pyInt_eq, scaleBoxToImage, List.filter, List.lookup]

/-- Prefix of a zipped batch whose class indices all resolve in the label
map: the draw-call loop neither filters nor reorders, it renders exactly the
first `n` entries. -/
theorem drawCalls_eq_take_map (labels_map : List (ℤ × String)) :
    ∀ (n : ℕ) (l : List (Box4 × ℚ × ℚ)),
      (∀ d ∈ l.take n, (labels_map.lookup (pyInt d.2.1)).isSome = true) →
      drawCalls labels_map n l =
        (l.take n).map (fun d =>
          (d.1, (labels_map.lookup (pyInt d.2.1)).getD "" ++ " " ++ fmtScore d.2.2)) := by
  intro n
  induction n with
  | zero => intro l _; simp [drawCalls]
  | succ n ih =>
    intro l hl
    cases l with
    | nil => simp [drawCalls]
    | cons d rest =>
      have hd : (labels_map.lookup (pyInt d.2.1)).isSome = true := by
        refine hl d ?_
        simp [List.take_succ_cons]
      obtain ⟨name, hname⟩ := Option.isSome_iff_exists.mp hd
      have hrest : ∀ d2 ∈ rest.take n, (labels_map.lookup (pyInt d2.2.1)).isSome = true := by
        intro d2 h2
        refine hl d2 ?_
        simp only [List.take_succ_cons, List.mem_cons]
        exact Or.inr h2
      rw [drawCalls, hname, ih rest hrest]
      simp [hname]

/-- Claim C6 (amended).  `visualize_inference_result` applies no Detection
Filter and uses no threshold: whenever every class index of the first
`min(N, num_detections)` detections is present in the label map, it renders
exactly those detections, in batch order, each box scaled by the original
image height and width on its own axis and labelled with the looked-up name
and the score — low-scoring detections included. -/
theorem visualize_drawList_no_filter (res : InferenceResult)
    (labels_map : List (ℤ × String)) (limit : Option ℤ) (img_h img_w : ℚ)
    (hl : ∀ d ∈ ((res.detection_boxes.map (scaleBoxToImage img_h img_w)).zip
        (res.detection_classes.zip res.detection_scores)).take
          (detectionsLimit limit res.num_detections).toNat,
      (labels_map.lookup (pyInt d.2.1)).isSome = true) :
    visualize_drawList res labels_map limit img_h img_w =
      (((res.detection_boxes.map (scaleBoxToImage img_h img_w)).zip
          (res.detection_classes.zip res.detection_scores)).take
            (detectionsLimit limit res.num_detections).toNat).map
        (fun d => (d.1, (labels_map.lookup (pyInt d.2.1)).getD "" ++ " " ++ fmtScore d.2.2)) := by
  rw [visualize_drawList]
  exact drawCalls_eq_take_map labels_map _ _ hl

/-- Witness for `visualize_drawList_no_filter`: one detection of score 0.9
and class 1 on a 4×4 image. -/
theorem visualize_drawList_no_filter_witness :
    visualize_drawList ⟨[(1/10, 1/10, 1/2, 1/2)], [1], [9/10], 1⟩ [(1, "cat")] none 4 4 =
      (((([(1/10, 1/10, 1/2, 1/2)] : List Box4).map (scaleBoxToImage 4 4)).zip
          (([1] : List ℚ).zip ([9/10] : List ℚ))).take
            (detectionsLimit none 1).toNat).map
        (fun d => ((List.lookup (pyInt d.2.1) [((1 : ℤ), "cat")]).getD "" ++ " " ++
            fmtScore d.2.2) |> fun s => (d.1, s)) :=
  visualize_drawList_no_filter ⟨[(1/10, 1/10, 1/2, 1/2)], [1], [9/10], 1⟩ [(1, "cat")]
    none 4 4 (by norm_num [detectionsLimit, pyInt_eq, scaleBoxToImage, List.lookup])
